import Mathlib

/-!
Verification of the email-classification core of the mail-agent repository.

Shallow embedding of src/agent/classifier.py (EmailClassifier, the result
cache ClassificationCache) and the request-shape selection of
classify_email, over the data model of src/models/schemas.py.

Modelling conventions:
- Python str.lower is String.toLower; Python dict preserves insertion
  order, so dict[str, V] is an association list in insertion order, with
  assignment updating an existing key in place and appending a new key at
  the end; next(iter(d)) on a non-empty dict is the head key, so
  d.pop(next(iter(d))) is List.drop 1.
- datetime values are opaque strings; float fields (confidence,
  temperature) are rationals, since only equality and range comparisons
  on them matter to the claims.
- The OpenAI transport and the pydantic JSON parser are external
  collaborators: they enter the embedding as oracle parameters, one value
  describing what the call would return or raise.
- Python exception flow is Except: the try body of classify_email is
  classify_body, returning Except (PyErr, logs so far); the except
  clauses are the outer match in classify_email.
-/

/-- CategoryDefinition of src/models/schemas.py. -/
structure CategoryDefinition where
  name : String
  description : String
  keywords : List String
  priority_boost : Int
deriving Repr, DecidableEq

/-- EmailClassification of src/models/schemas.py: the five-field structured
classification result. -/
structure EmailClassification where
  category : String
  priority : Int
  labels : List String
  reasoning : String
  confidence : Rat
deriving Repr, DecidableEq

/-- Email of src/models/schemas.py (datetime modelled as an opaque string). -/
structure Email where
  id : String
  provider : String
  subject : String
  sender : String
  sender_name : Option String
  recipient : String
  date : String
  body_preview : String
  body_full : Option String
  is_read : Bool
  has_attachments : Bool
  existing_labels : List String
deriving Repr, DecidableEq

/-- Python str.lower, over the character sequence (each character lowered
independently, as CPython does for ASCII category names). -/
def pyLower (s : String) : String := String.mk (s.data.map Char.toLower)

/-- Python str.startswith: the prefix test on the character sequence. -/
def pyStartsWith (s p : String) : Bool := p.data.isPrefixOf s.data

/-- EmailClassifier._apply_priority_boost (classifier.py lines 171-192):
find the first category whose lowered name equals the lowered returned
category; if found and its priority_boost is nonzero (Python truthiness),
set priority to max(1, min(5, priority + boost)). -/
def apply_priority_boost (categories : List CategoryDefinition)
    (classification : EmailClassification) : EmailClassification :=
  let category_def :=
    categories.find? (fun cat => pyLower cat.name == pyLower classification.category)
  match category_def with
  | some cd =>
      if cd.priority_boost ≠ 0 then
        { classification with
            priority := max 1 (min 5 (classification.priority + cd.priority_boost)) }
      else classification
  | none => classification

/-- EmailClassifier._validate_category (classifier.py lines 194-207):
any(cat.name.lower() == category.lower() for cat in self.categories). -/
def validate_category (categories : List CategoryDefinition) (category : String) : Bool :=
  categories.any (fun cat => pyLower cat.name == pyLower category)

/-- ClassificationCache of classifier.py: max_size plus the insertion-ordered
dict, as an association list. -/
structure ClassificationCache where
  max_size : Nat
  cache : List (String × EmailClassification)
deriving Repr, DecidableEq

/-- ClassificationCache.get: self.cache.get(email_id). -/
def ClassificationCache.get (c : ClassificationCache) (email_id : String) :
    Option EmailClassification :=
  (c.cache.find? (fun p => p.1 == email_id)).map (fun p => p.2)

/-- Python dict assignment d[k] = v on an insertion-ordered dict: update the
existing key in place, else append at the end. -/
def dictAssign (cache : List (String × EmailClassification)) (k : String)
    (v : EmailClassification) : List (String × EmailClassification) :=
  if cache.any (fun p => p.1 == k) then
    cache.map (fun p => if p.1 == k then (k, v) else p)
  else cache ++ [(k, v)]

/-- ClassificationCache.set (classifier.py lines 247-260): if
len(cache) >= max_size, pop the first (oldest-inserted) key, then assign
cache[email_id] = classification. -/
def ClassificationCache.set (c : ClassificationCache) (email_id : String)
    (classification : EmailClassification) : ClassificationCache :=
  let cache1 := if c.cache.length ≥ c.max_size then c.cache.drop 1 else c.cache
  { c with cache := dictAssign cache1 email_id classification }

/-- ClassificationCache.has: email_id in self.cache. -/
def ClassificationCache.has (c : ClassificationCache) (email_id : String) : Bool :=
  c.cache.any (fun p => p.1 == email_id)

/-- ClassificationCache.clear: self.cache.clear(). -/
def ClassificationCache.clear (c : ClassificationCache) : ClassificationCache :=
  { c with cache := [] }

/-- One call against the cache, for stating state invariants over arbitrary
operation sequences (get and has do not change the state). -/
inductive CacheOp where
  | get (k : String)
  | set (k : String) (v : EmailClassification)
  | has (k : String)
  | clear
deriving Repr

/-- State transition of one cache operation. -/
def applyOp (c : ClassificationCache) (op : CacheOp) : ClassificationCache :=
  match op with
  | .get _ => c
  | .set k v => c.set k v
  | .has _ => c
  | .clear => c.clear

/-- Python exceptions the try block of classify_email can raise, as its
except clauses distinguish them: openai.APITimeoutError, openai.APIError,
and every other Exception (pydantic parse errors, IndexError, ...). -/
inductive PyErr where
  | timeout
  | apiError (msg : String)
  | exc (msg : String)
deriving Repr, DecidableEq

/-- Outcome of one awaited transport call: a returned value, or a raised
exception. -/
inductive TransportResult (α : Type) where
  | ok (a : α)
  | raises (e : PyErr)
deriving Repr

/-- Shape of a client.responses.create result, as classify_email reads it:
status, incomplete_details.reason, output_text. -/
structure Gpt5Response where
  status : String
  reason : String
  output_text : String
deriving Repr, DecidableEq

/-- Single ASCII apostrophe, for rendering the f-string quotes in log lines. -/
def apos : String := String.singleton (Char.ofNat 39)

/-- Log line of the invalid-category warning print in classify_email. -/
def invalidCategoryWarn (category : String) : String :=
  "Warning: Invalid category " ++ apos ++ category ++ apos ++ ", using first available"

/-- Log line of the GPT-5 incomplete-response warning print. -/
def incompleteWarn (reason : String) : String :=
  "Warning: GPT-5 response incomplete: " ++ reason

/-- Log line printed by the except clause handling e for the given email id. -/
def excLog (e : PyErr) (email_id : String) : String :=
  match e with
  | .timeout => "Timeout classifying email " ++ email_id
  | .apiError m => "OpenAI API error classifying email " ++ email_id ++ ": " ++ m
  | .exc m => "Unexpected error classifying email " ++ email_id ++ ": " ++ m

/-- Tail of the classify_email try block, common to both branches
(classifier.py lines 105-120): parse the content (pydantic parse_raw, an
oracle; a parse failure raises), apply the priority boost, then validate the
category and substitute categories[0].name when invalid. With an empty
taxonomy that subscript raises IndexError, after the warning was already
printed. Errors carry the log lines printed before the raise. -/
def finish_content (categories : List CategoryDefinition)
    (parseRaw : String → Except String EmailClassification) (content : String) :
    Except (PyErr × List String) (Option EmailClassification × List String) :=
  match parseRaw content with
  | .error msg => .error (.exc msg, [])
  | .ok cls0 =>
    let cls := apply_priority_boost categories cls0
    if validate_category categories cls.category then
      .ok (some cls, [])
    else
      match categories with
      | [] => .error (.exc "list index out of range", [invalidCategoryWarn cls.category])
      | c0 :: _ =>
        .ok (some { cls with category := c0.name }, [invalidCategoryWarn cls.category])

/-- Try block of EmailClassifier.classify_email (classifier.py lines 49-120):
branch on whether the configured model identifier starts with gpt-5; in the
GPT-5 branch fail on a non-completed status (warning without the email id)
or empty output_text (no log); in the standard branch fail on missing or
empty message content (no log); otherwise run the common tail. The two
transport oracles describe what the one awaited call of the taken branch
returns or raises. -/
def classify_body (categories : List CategoryDefinition) (modelName : String)
    (gpt5Call : TransportResult Gpt5Response)
    (chatCall : TransportResult (Option String))
    (parseRaw : String → Except String EmailClassification) :
    Except (PyErr × List String) (Option EmailClassification × List String) :=
  if pyStartsWith modelName "gpt-5" then
    match gpt5Call with
    | .raises e => .error (e, [])
    | .ok r =>
      if r.status ≠ "completed" then
        .ok (none, [incompleteWarn r.reason])
      else
        let content := r.output_text
        if content = "" then .ok (none, [])
        else finish_content categories parseRaw content
  else
    match chatCall with
    | .raises e => .error (e, [])
    | .ok content? =>
      match content? with
      | none => .ok (none, [])
      | some content =>
        if content = "" then .ok (none, [])
        else finish_content categories parseRaw content

/-- EmailClassifier.classify_email: the try body plus its except clauses.
Every raised exception becomes the absent result None plus a printed line
naming the email id; the returned list collects the log lines printed during
the call, in order. -/
def classify_email (categories : List CategoryDefinition) (modelName : String)
    (email : Email) (gpt5Call : TransportResult Gpt5Response)
    (chatCall : TransportResult (Option String))
    (parseRaw : String → Except String EmailClassification) :
    Option EmailClassification × List String :=
  match classify_body categories modelName gpt5Call chatCall parseRaw with
  | .ok r => r
  | .error (e, logs) => (none, logs ++ [excLog e email.id])

/-- Role-tagged message turn, as built by build_classification_messages. -/
structure Message where
  role : String
  content : String
deriving Repr, DecidableEq

/-- Field names of the five-field EmailClassification schema that the
standard branch binds as response_format. -/
def classificationFields : List String :=
  ["category", "priority", "labels", "reasoning", "confidence"]

/-- Request shapes classify_email can issue: the GPT-5 /v1/responses call
with a single input string and no sampling temperature, or the standard
chat.completions.parse call with the role-message array, a temperature and
the response-format schema binding. -/
inductive ApiRequest where
  | responses (model : String) (input : String) (max_output_tokens : Nat)
  | chatParse (model : String) (messages : List Message)
      (response_format : List String) (temperature : Rat) (max_tokens : Nat)
deriving Repr, DecidableEq

/-- Input string of the GPT-5 branch (classifier.py lines 61-68): the
role-prefixed turns joined by blank lines, plus the appended JSON
instruction. -/
def gpt5Input (messages : List Message) : String :=
  String.intercalate "\n\n" (messages.map (fun m => m.role ++ ": " ++ m.content))
    ++ "\n\nProvide your response as a valid JSON object."

/-- Request-shape selection of classify_email (classifier.py lines 57-103),
as a function of the configured model identifier, the sampling settings and
the built messages. -/
def build_request (modelName : String) (temperature : Rat) (maxTokens : Nat)
    (messages : List Message) : ApiRequest :=
  if pyStartsWith modelName "gpt-5" then
    .responses modelName (gpt5Input messages) maxTokens
  else
    .chatParse modelName messages classificationFields temperature maxTokens

/-- True exactly for the request shapes that carry a sampling temperature. -/
def ApiRequest.hasTemperature : ApiRequest → Bool
  | .responses _ _ _ => false
  | .chatParse _ _ _ _ _ => true

/-- Replacement applied to one gathered result in the collection loop of
classify_batch: an exception value degrades to (email, None). -/
def resultOf : Except String (Option EmailClassification) → Option EmailClassification
  | .error _ => none
  | .ok c => c

/-- Results of asyncio.gather(*tasks, return_exceptions=True) in
classify_batch: one slot per task, positionally in task (input) order
regardless of completion order, a per-task exception captured as a value.
The oracle gives each email its task outcome. -/
def gatherResults (emails : List Email)
    (oracle : Email → Except String (Option EmailClassification)) :
    List (Except String (Email × Option EmailClassification)) :=
  emails.map (fun e => (oracle e).map (fun c => (e, c)))

/-- EmailClassifier.classify_batch (classifier.py lines 132-169): gather one
task per email, then walk the results with their indices, replacing an
exception at slot i by (emails[i], None) and keeping every other tuple. -/
def classify_batch (emails : List Email)
    (oracle : Email → Except String (Option EmailClassification)) :
    List (Email × Option EmailClassification) :=
  (List.zip emails (gatherResults emails oracle)).map
    (fun p =>
      match p.2 with
      | .error _ => (p.1, none)
      | .ok r => r)


/-! Concrete values used by witnesses and counterexamples. -/

/-- Taxonomy entry of the C2 scenario: name Security & 2FA, boost 3. -/
def secCat : CategoryDefinition :=
  { name := "Security & 2FA", description := "Security and 2FA codes",
    keywords := ["2fa"], priority_boost := 3 }

/-- Model response of the C2 scenario. -/
def secCls : EmailClassification :=
  { category := "Security & 2FA", priority := 2, labels := ["security"],
    reasoning := "Contains a verification code", confidence := 9/10 }

/-- Concrete email used by witnesses. -/
def email0 : Email :=
  { id := "msg_1", provider := "gmail", subject := "Your verification code",
    sender := "noreply@service.com", sender_name := some "Service Team",
    recipient := "user@example.com", date := "2025-01-15T10:30:00Z",
    body_preview := "Your verification code is 123456", body_full := none,
    is_read := false, has_attachments := false, existing_labels := ["INBOX"] }

/-! Theorems. -/

/-- C2: the priority-boost step looks the returned category up by
case-insensitive name match; when the lookup finds an entry with nonzero
priority_boost the priority becomes the raw priority plus the boost clamped
to the range 1 to 5, and category, labels, reasoning and confidence are
untouched; on the Security & 2FA scenario the priority 2 becomes 5 with the
other fields unchanged. -/
theorem apply_priority_boost_boosts_and_preserves :
    (∀ (categories : List CategoryDefinition) (cls : EmailClassification)
        (cd : CategoryDefinition),
      categories.find? (fun cat => pyLower cat.name == pyLower cls.category) = some cd →
      cd.priority_boost ≠ 0 →
      apply_priority_boost categories cls =
        { cls with priority := max 1 (min 5 (cls.priority + cd.priority_boost)) }) ∧
    (∀ r : String,
      apply_priority_boost [secCat]
          { category := "Security & 2FA", priority := 2, labels := ["security"],
            reasoning := r, confidence := 9/10 } =
        { category := "Security & 2FA", priority := 5, labels := ["security"],
          reasoning := r, confidence := 9/10 }) := by
  constructor
  · intro categories cls cd hfind hboost
    unfold apply_priority_boost
    rw [hfind]
    simp [hboost]
  · intro r
    rfl

/-- Witness for C2 at the Security & 2FA scenario. -/
theorem apply_priority_boost_boosts_and_preserves_witness :
    apply_priority_boost [secCat] secCls = { secCls with priority := 5 } := by
  have h := apply_priority_boost_boosts_and_preserves.1 [secCat] secCls secCat
    (by decide) (by decide)
  simpa [secCls] using h

/-- C3: for every taxonomy whose boosts lie in the range -10 to 10 and every
raw model priority in the range 1 to 5, the priority after the
boost-and-clamp step remains in the range 1 to 5. -/
theorem boost_clamp_priority_in_range
    (categories : List CategoryDefinition) (cls : EmailClassification)
    (h1 : 1 ≤ cls.priority) (h5 : cls.priority ≤ 5)
    (_hb : ∀ cat ∈ categories, -10 ≤ cat.priority_boost ∧ cat.priority_boost ≤ 10) :
    1 ≤ (apply_priority_boost categories cls).priority ∧
      (apply_priority_boost categories cls).priority ≤ 5 := by
  unfold apply_priority_boost
  cases hfind : categories.find? (fun cat => pyLower cat.name == pyLower cls.category) with
  | none => exact ⟨h1, h5⟩
  | some cd =>
    simp only []
    by_cases hz : cd.priority_boost ≠ 0
    · rw [if_pos hz]
      refine ⟨le_max_left 1 _, max_le (by norm_num) ?_⟩
      exact min_le_left 5 _
    · rw [if_neg hz]
      exact ⟨h1, h5⟩

/-- Witness for C3 at the Security & 2FA scenario. -/
theorem boost_clamp_priority_in_range_witness :
    1 ≤ (apply_priority_boost [secCat] secCls).priority ∧
      (apply_priority_boost [secCat] secCls).priority ≤ 5 :=
  boost_clamp_priority_in_range [secCat] secCls (by decide) (by decide) (by decide)

/-- C8: the request shape depends only on the configured model identifier:
exactly the gpt-5 prefixed identifiers yield the responses-style request
whose input is the role-prefixed turns joined together with the JSON
instruction appended and which carries no sampling temperature; every other
identifier yields the chat-style request with the role-message array, the
temperature and the five-field response-format binding. -/
theorem request_shape_selection (modelName : String) (temperature : Rat)
    (maxTokens : Nat) (messages : List Message) :
    ((build_request modelName temperature maxTokens messages).hasTemperature = false ↔
      pyStartsWith modelName "gpt-5" = true) ∧
    (pyStartsWith modelName "gpt-5" = true →
      build_request modelName temperature maxTokens messages =
        .responses modelName (gpt5Input messages) maxTokens) ∧
    (pyStartsWith modelName "gpt-5" = false →
      build_request modelName temperature maxTokens messages =
        .chatParse modelName messages classificationFields temperature maxTokens) := by
  unfold build_request
  by_cases h : pyStartsWith modelName "gpt-5" = true
  · simp [h, ApiRequest.hasTemperature]
  · simp only [Bool.not_eq_true] at h
    simp [h, ApiRequest.hasTemperature]

/-- Witness for C8 on a reasoning-family identifier and a standard one. -/
theorem request_shape_selection_witness :
    build_request "gpt-5-mini" (1/10) 4000 [] =
      .responses "gpt-5-mini" (gpt5Input []) 4000 ∧
    build_request "gpt-4o-mini" (1/10) 4000 [] =
      .chatParse "gpt-4o-mini" [] classificationFields (1/10) 4000 :=
  ⟨(request_shape_selection "gpt-5-mini" (1/10) 4000 []).2.1 (by decide),
   (request_shape_selection "gpt-4o-mini" (1/10) 4000 []).2.2 (by decide)⟩

/-- Pointwise description of classify_batch: each email is paired with its
own outcome, an exception degraded to none. -/
theorem classify_batch_eq_map (emails : List Email)
    (oracle : Email → Except String (Option EmailClassification)) :
    classify_batch emails oracle = emails.map (fun e => (e, resultOf (oracle e))) := by
  induction emails with
  | nil => rfl
  | cons e es ih =>
    have h1 : classify_batch (e :: es) oracle =
        (match (oracle e).map (fun c => (e, c)) with
          | .error _ => (e, none)
          | .ok r => r) :: classify_batch es oracle := rfl
    rw [h1, ih, List.map_cons]
    cases h : oracle e with
    | error s => simp [h, Except.map, resultOf]
    | ok c => simp [h, Except.map, resultOf]

/-- C4: classify_batch returns one slot per input email, the slot at index i
pairing the i-th input email with that very email's
classification-or-absent outcome (a per-email exception giving none),
independent of completion order, which the positional semantics of the
gather step fixes to task order. -/
theorem classify_batch_preserves_order (emails : List Email)
    (oracle : Email → Except String (Option EmailClassification)) :
    (classify_batch emails oracle).length = emails.length ∧
    ∀ i : Nat, (classify_batch emails oracle)[i]? =
      emails[i]?.map (fun e => (e, resultOf (oracle e))) := by
  rw [classify_batch_eq_map]
  exact ⟨List.length_map _ _, fun i => by rw [List.getElem?_map]⟩

/-- Successful validation exhibits a case-insensitively matching taxonomy
entry. -/
theorem validate_category_exists {categories : List CategoryDefinition} {cat : String}
    (h : validate_category categories cat = true) :
    ∃ cd ∈ categories, pyLower cd.name = pyLower cat := by
  simp only [validate_category, List.any_eq_true, beq_iff_eq] at h
  exact h

/-- Classification coming out of the common tail carries a category of the
taxonomy whenever the taxonomy is non-empty. -/
theorem finish_content_category {categories : List CategoryDefinition}
    {parseRaw : String → Except String EmailClassification} {content : String}
    {cls : EmailClassification} {logs : List String}
    (hne : categories ≠ [])
    (h : finish_content categories parseRaw content = .ok (some cls, logs)) :
    ∃ cd ∈ categories, pyLower cd.name = pyLower cls.category := by
  unfold finish_content at h
  cases hp : parseRaw content with
  | error msg => rw [hp] at h; exact absurd h (by simp)
  | ok cls0 =>
    rw [hp] at h
    simp only [] at h
    by_cases hv : validate_category categories
        (apply_priority_boost categories cls0).category = true
    · rw [if_pos hv] at h
      simp only [Except.ok.injEq, Prod.mk.injEq, Option.some.injEq] at h
      obtain ⟨hcls, -⟩ := h
      subst hcls
      exact validate_category_exists hv
    · rw [if_neg hv] at h
      cases categories with
      | nil => exact absurd rfl hne
      | cons c0 rest =>
        simp only [Except.ok.injEq, Prod.mk.injEq, Option.some.injEq] at h
        obtain ⟨hcls, -⟩ := h
        subst hcls
        exact ⟨c0, List.mem_cons_self c0 rest, rfl⟩

/-- Every classification the try body can return carries a category of the
taxonomy whenever the taxonomy is non-empty. -/
theorem classify_body_category {categories : List CategoryDefinition}
    {modelName : String} {gpt5Call : TransportResult Gpt5Response}
    {chatCall : TransportResult (Option String)}
    {parseRaw : String → Except String EmailClassification}
    {cls : EmailClassification} {logs : List String}
    (hne : categories ≠ [])
    (h : classify_body categories modelName gpt5Call chatCall parseRaw =
      .ok (some cls, logs)) :
    ∃ cd ∈ categories, pyLower cd.name = pyLower cls.category := by
  unfold classify_body at h
  cases hst : pyStartsWith modelName "gpt-5" with
  | true =>
    rw [hst] at h
    simp only [if_true] at h
    cases gpt5Call with
    | raises e => exact absurd h (by simp)
    | ok r =>
      dsimp only [] at h
      by_cases hs : r.status ≠ "completed"
      · rw [if_pos hs] at h; exact absurd h (by simp)
      · rw [if_neg hs] at h
        by_cases hc : r.output_text = ""
        · rw [if_pos hc] at h; exact absurd h (by simp)
        · rw [if_neg hc] at h; exact finish_content_category hne h
  | false =>
    rw [hst] at h
    simp only [Bool.false_eq_true, if_false] at h
    cases chatCall with
    | raises e => exact absurd h (by simp)
    | ok content? =>
      cases content? with
      | none => exact absurd h (by simp)
      | some content =>
        dsimp only [] at h
        by_cases hc : content = ""
        · rw [if_pos hc] at h; exact absurd h (by simp)
        · rw [if_neg hc] at h; exact finish_content_category hne h

/-- C1: for a non-empty taxonomy, classify_email either returns none or a
classification whose category case-insensitively equals the name of some
taxonomy entry; an unrecognized model category is replaced by the first
entry, never surfaced. -/
theorem classify_email_category_in_taxonomy
    (categories : List CategoryDefinition) (modelName : String) (email : Email)
    (gpt5Call : TransportResult Gpt5Response)
    (chatCall : TransportResult (Option String))
    (parseRaw : String → Except String EmailClassification)
    (cls : EmailClassification)
    (hne : categories ≠ [])
    (h : (classify_email categories modelName email gpt5Call chatCall parseRaw).1 =
      some cls) :
    ∃ cd ∈ categories, pyLower cd.name = pyLower cls.category := by
  unfold classify_email at h
  cases hb : classify_body categories modelName gpt5Call chatCall parseRaw with
  | error e =>
    rw [hb] at h
    obtain ⟨e1, logs⟩ := e
    simp at h
  | ok r =>
    rw [hb] at h
    obtain ⟨r1, r2⟩ := r
    simp only [] at h
    subst h
    exact classify_body_category hne hb

/-- Completed GPT-5 transport value, unused by the standard branch. -/
def g0 : TransportResult Gpt5Response := .ok ⟨"completed", "", ""⟩

/-- Parse oracle returning the Security & 2FA classification. -/
def parseSec : String → Except String EmailClassification := fun _ => .ok secCls

/-- Witness for C1 on a concrete classification run that returns a result. -/
theorem classify_email_category_in_taxonomy_witness :
    ∃ cd ∈ [secCat],
      pyLower cd.name = pyLower ({ secCls with priority := 5 } : EmailClassification).category :=
  classify_email_category_in_taxonomy [secCat] "gpt-4o-mini" email0 g0
    (.ok (some "body")) parseSec { secCls with priority := 5 }
    (by decide) rfl

/-- C9: when the model category matches no taxonomy entry case-insensitively,
the returned classification is the raw one with only the category replaced
by the first entry, the raw priority kept: the boost lookup ran before the
substitution with the very match that failed, so the default entry gets no
boost applied. -/
theorem unmatched_category_keeps_raw_priority
    (c0 : CategoryDefinition) (rest : List CategoryDefinition) (modelName : String)
    (email : Email) (gpt5Call : TransportResult Gpt5Response) (content : String)
    (parseRaw : String → Except String EmailClassification)
    (cls : EmailClassification)
    (hst : pyStartsWith modelName "gpt-5" = false)
    (hc : content ≠ "")
    (hp : parseRaw content = .ok cls)
    (hmiss : ∀ cat ∈ c0 :: rest, pyLower cat.name ≠ pyLower cls.category) :
    classify_email (c0 :: rest) modelName email gpt5Call (.ok (some content)) parseRaw =
      (some { cls with category := c0.name }, [invalidCategoryWarn cls.category]) ∧
    ((classify_email (c0 :: rest) modelName email gpt5Call (.ok (some content))
        parseRaw).1.map EmailClassification.priority) = some cls.priority := by
  have hfind : (c0 :: rest).find?
      (fun cat => pyLower cat.name == pyLower cls.category) = none := by
    rw [List.find?_eq_none]
    intro cat hm
    simpa [beq_iff_eq] using hmiss cat hm
  have hboost : apply_priority_boost (c0 :: rest) cls = cls := by
    unfold apply_priority_boost
    rw [hfind]
  have hval : validate_category (c0 :: rest) cls.category = false := by
    simp only [validate_category, List.any_eq_false, beq_iff_eq]
    exact hmiss
  have hfin : finish_content (c0 :: rest) parseRaw content =
      .ok (some { cls with category := c0.name }, [invalidCategoryWarn cls.category]) := by
    unfold finish_content
    rw [hp]
    dsimp only []
    rw [hboost, hval]
    rfl
  have hbody : classify_body (c0 :: rest) modelName gpt5Call
      (.ok (some content)) parseRaw =
      .ok (some { cls with category := c0.name }, [invalidCategoryWarn cls.category]) := by
    unfold classify_body
    rw [hst]
    simp only [Bool.false_eq_true, if_false]
    rw [if_neg hc]
    exact hfin
  have hmain : classify_email (c0 :: rest) modelName email gpt5Call
      (.ok (some content)) parseRaw =
      (some { cls with category := c0.name }, [invalidCategoryWarn cls.category]) := by
    unfold classify_email
    rw [hbody]
  exact ⟨hmain, by rw [hmain]; rfl⟩

/-- Model response whose category is outside the taxonomy. -/
def strayCls : EmailClassification :=
  { category := "Totally Unknown", priority := 2, labels := [],
    reasoning := "Looks unfamiliar", confidence := 1/2 }

/-- Parse oracle returning the out-of-taxonomy classification. -/
def parseStray : String → Except String EmailClassification := fun _ => .ok strayCls

/-- Witness for C9 on a concrete out-of-taxonomy model response. -/
theorem unmatched_category_keeps_raw_priority_witness :
    classify_email [secCat] "gpt-4o-mini" email0 g0 (.ok (some "body")) parseStray =
      (some { strayCls with category := secCat.name },
        [invalidCategoryWarn strayCls.category]) ∧
    ((classify_email [secCat] "gpt-4o-mini" email0 g0 (.ok (some "body"))
        parseStray).1.map EmailClassification.priority) = some strayCls.priority :=
  unmatched_category_keeps_raw_priority secCat [] "gpt-4o-mini" email0 g0 "body"
    parseStray strayCls (by decide) (by decide) rfl (by decide)

/-- Counterexample for C5: a standard response with empty message content is
a failure (classify_email returns none), yet the call prints nothing at all,
so no log line identifies the email. -/
theorem classify_email_empty_content_counterexample :
    (classify_email [secCat] "gpt-4o-mini" email0 g0 (.ok (some "")) parseSec).1
        = none ∧
    (classify_email [secCat] "gpt-4o-mini" email0 g0 (.ok (some "")) parseSec).2
        = [] :=
  ⟨rfl, rfl⟩

/-- C5 amended: classify_email converts every failure to the absent result
none and lets no exception escape; a failure that surfaces as an exception
(transport timeout, API error, malformed JSON or schema violation, any
unexpected exception) additionally prints one line naming the email id,
while missing or empty content prints nothing and an incomplete
reasoning-family response prints a warning naming the incompletion reason
but not the email. -/
theorem classify_email_failure_handling :
    (∀ (categories : List CategoryDefinition) (modelName : String) (email : Email)
        (gpt5Call : TransportResult Gpt5Response) (chatCall : TransportResult (Option String))
        (parseRaw : String → Except String EmailClassification) (e : PyErr),
      pyStartsWith modelName "gpt-5" = true → gpt5Call = .raises e →
      classify_email categories modelName email gpt5Call chatCall parseRaw =
        (none, [excLog e email.id])) ∧
    (∀ (categories : List CategoryDefinition) (modelName : String) (email : Email)
        (gpt5Call : TransportResult Gpt5Response) (chatCall : TransportResult (Option String))
        (parseRaw : String → Except String EmailClassification) (e : PyErr),
      pyStartsWith modelName "gpt-5" = false → chatCall = .raises e →
      classify_email categories modelName email gpt5Call chatCall parseRaw =
        (none, [excLog e email.id])) ∧
    (∀ (categories : List CategoryDefinition) (modelName : String) (email : Email)
        (gpt5Call : TransportResult Gpt5Response) (chatCall : TransportResult (Option String))
        (parseRaw : String → Except String EmailClassification) (content msg : String),
      pyStartsWith modelName "gpt-5" = false → chatCall = .ok (some content) →
      content ≠ "" → parseRaw content = .error msg →
      classify_email categories modelName email gpt5Call chatCall parseRaw =
        (none, [excLog (.exc msg) email.id])) ∧
    (∀ (categories : List CategoryDefinition) (modelName : String) (email : Email)
        (gpt5Call : TransportResult Gpt5Response) (chatCall : TransportResult (Option String))
        (parseRaw : String → Except String EmailClassification),
      pyStartsWith modelName "gpt-5" = false →
      (chatCall = .ok none ∨ chatCall = .ok (some "")) →
      classify_email categories modelName email gpt5Call chatCall parseRaw =
        (none, [])) ∧
    (∀ (categories : List CategoryDefinition) (modelName : String) (email : Email)
        (chatCall : TransportResult (Option String))
        (parseRaw : String → Except String EmailClassification) (r : Gpt5Response),
      pyStartsWith modelName "gpt-5" = true → r.status ≠ "completed" →
      classify_email categories modelName email (.ok r) chatCall parseRaw =
        (none, [incompleteWarn r.reason])) ∧
    (∀ (categories : List CategoryDefinition) (modelName : String) (email : Email)
        (chatCall : TransportResult (Option String))
        (parseRaw : String → Except String EmailClassification) (r : Gpt5Response),
      pyStartsWith modelName "gpt-5" = true → r.status = "completed" →
      r.output_text = "" →
      classify_email categories modelName email (.ok r) chatCall parseRaw =
        (none, [])) := by
  refine ⟨?_, ?_, ?_, ?_, ?_, ?_⟩
  · intro categories modelName email gpt5Call chatCall parseRaw e hst hge
    subst hge
    unfold classify_email classify_body
    rw [hst]
    rfl
  · intro categories modelName email gpt5Call chatCall parseRaw e hst hce
    subst hce
    unfold classify_email classify_body
    rw [hst]
    rfl
  · intro categories modelName email gpt5Call chatCall parseRaw content msg hst hce hc hp
    subst hce
    unfold classify_email classify_body
    rw [hst]
    simp only [Bool.false_eq_true, if_false]
    rw [if_neg hc]
    unfold finish_content
    rw [hp]
    rfl
  · intro categories modelName email gpt5Call chatCall parseRaw hst hce
    cases hce with
    | inl hn =>
      subst hn
      unfold classify_email classify_body
      rw [hst]
      rfl
    | inr hs =>
      subst hs
      unfold classify_email classify_body
      rw [hst]
      rfl
  · intro categories modelName email chatCall parseRaw r hst hs
    unfold classify_email classify_body
    rw [hst]
    simp only [if_true]
    rw [if_pos hs]
  · intro categories modelName email chatCall parseRaw r hst hs ho
    unfold classify_email classify_body
    rw [hst]
    simp only [if_true]
    rw [if_neg (by simp [hs]), ho]
    rfl

/-- Parse oracle that always fails, as pydantic does on malformed JSON. -/
def parseBad : String → Except String EmailClassification := fun _ => .error "bad json"

/-- Witness for the amended C5, one concrete run per failure kind. -/
theorem classify_email_failure_handling_witness :
    classify_email [secCat] "gpt-5-mini" email0 (.raises .timeout) (.ok none) parseSec =
      (none, [excLog .timeout email0.id]) ∧
    classify_email [secCat] "gpt-4o-mini" email0 g0 (.raises (.apiError "server error"))
        parseSec = (none, [excLog (.apiError "server error") email0.id]) ∧
    classify_email [secCat] "gpt-4o-mini" email0 g0 (.ok (some "body")) parseBad =
      (none, [excLog (.exc "bad json") email0.id]) ∧
    classify_email [secCat] "gpt-4o-mini" email0 g0 (.ok none) parseSec = (none, []) ∧
    classify_email [secCat] "gpt-5-mini" email0
        (.ok ⟨"incomplete", "max_output_tokens", "x"⟩) (.ok none) parseSec =
      (none, [incompleteWarn "max_output_tokens"]) ∧
    classify_email [secCat] "gpt-5-mini" email0 (.ok ⟨"completed", "r", ""⟩)
        (.ok none) parseSec = (none, []) :=
  ⟨classify_email_failure_handling.1 [secCat] "gpt-5-mini" email0 _ (.ok none)
      parseSec .timeout (by decide) rfl,
   classify_email_failure_handling.2.1 [secCat] "gpt-4o-mini" email0 g0 _
      parseSec (.apiError "server error") (by decide) rfl,
   classify_email_failure_handling.2.2.1 [secCat] "gpt-4o-mini" email0 g0 _
      parseBad "body" "bad json" (by decide) rfl (by decide) rfl,
   classify_email_failure_handling.2.2.2.1 [secCat] "gpt-4o-mini" email0 g0
      (.ok none) parseSec (by decide) (Or.inl rfl),
   classify_email_failure_handling.2.2.2.2.1 [secCat] "gpt-5-mini" email0
      (.ok none) parseSec ⟨"incomplete", "max_output_tokens", "x"⟩ (by decide) (by decide),
   classify_email_failure_handling.2.2.2.2.2 [secCat] "gpt-5-mini" email0
      (.ok none) parseSec ⟨"completed", "r", ""⟩ (by decide) rfl rfl⟩

/-- Keys are untouched by a dict assignment to a key already present. -/
theorem dictAssign_keys_of_mem {l : List (String × EmailClassification)}
    {k : String} (v : EmailClassification)
    (h : l.any (fun p => p.1 == k) = true) :
    (dictAssign l k v).map Prod.fst = l.map Prod.fst := by
  unfold dictAssign
  rw [if_pos h, List.map_map]
  apply List.map_congr_left
  intro p hp
  by_cases hb : (p.1 == k) = true
  · have he : p.1 = k := by simpa [beq_iff_eq] using hb
    simp [Function.comp, hb, he]
  · simp [Function.comp, hb]

/-- Dict assignment to an absent key appends the pair at the end. -/
theorem dictAssign_fresh {l : List (String × EmailClassification)} {k : String}
    (v : EmailClassification) (h : l.any (fun p => p.1 == k) = false) :
    dictAssign l k v = l ++ [(k, v)] := by
  unfold dictAssign
  rw [h]
  rfl

/-- Absent key never passes the membership test. -/
theorem any_key_eq_false {l : List (String × EmailClassification)} {k : String}
    (h : k ∉ l.map Prod.fst) : (l.any (fun p => p.1 == k)) = false := by
  rw [List.any_eq_false]
  intro p hp
  simp only [beq_iff_eq]
  intro he
  exact h (he ▸ List.mem_map_of_mem Prod.fst hp)

/-- Lookup of an absent key gives none. -/
theorem find?_key_eq_none {l : List (String × EmailClassification)} {k : String}
    (h : k ∉ l.map Prod.fst) : l.find? (fun p => p.1 == k) = none := by
  rw [List.find?_eq_none]
  intro p hp
  simp only [beq_iff_eq]
  intro he
  exact h (he ▸ List.mem_map_of_mem Prod.fst hp)

/-- On distinct keys, lookup of a stored pair returns exactly that pair. -/
theorem find?_of_mem_nodup {l : List (String × EmailClassification)}
    {p : String × EmailClassification}
    (hnd : (l.map Prod.fst).Nodup) (hp : p ∈ l) :
    l.find? (fun q => q.1 == p.1) = some p := by
  induction l with
  | nil => cases hp
  | cons q l ih =>
    rw [List.map_cons, List.nodup_cons] at hnd
    obtain ⟨hq, hnd2⟩ := hnd
    rcases List.mem_cons.mp hp with hpq | hpl
    · subst hpq
      exact List.find?_cons_of_pos _ (by simp)
    · have hne : (q.1 == p.1) = false := by
        simp only [beq_eq_false_iff_ne, ne_eq]
        intro he
        exact hq (he ▸ List.mem_map_of_mem Prod.fst hpl)
      rw [List.find?_cons_of_neg _ (by simp [hne])]
      exact ih hnd2 hpl

/-- Folding the cache setter over a list of pairs. -/
def insertAll (c : ClassificationCache)
    (ps : List (String × EmailClassification)) : ClassificationCache :=
  ps.foldl (fun acc p => acc.set p.1 p.2) c

/-- Inserting pairwise-distinct fresh keys while below capacity appends them
in order. -/
theorem insertAll_fresh (max : Nat) :
    ∀ (ps cache : List (String × EmailClassification)),
    cache.length + ps.length ≤ max →
    ((cache ++ ps).map Prod.fst).Nodup →
    insertAll ⟨max, cache⟩ ps = ⟨max, cache ++ ps⟩ := by
  intro ps
  induction ps with
  | nil => intro cache hlen hnd; simp [insertAll]
  | cons q ps ih =>
    intro cache hlen hnd
    have hlt : cache.length < max := by
      simp only [List.length_cons] at hlen
      omega
    have hfreshq : q.1 ∉ cache.map Prod.fst := by
      have h2 := hnd
      rw [List.map_append, List.nodup_append] at h2
      obtain ⟨-, -, hdisj⟩ := h2
      intro hmem
      exact hdisj hmem (by simp)
    have hset : (ClassificationCache.mk max cache).set q.1 q.2 =
        ⟨max, cache ++ [q]⟩ := by
      unfold ClassificationCache.set
      simp only [if_neg (by omega : ¬ cache.length ≥ max)]
      rw [dictAssign_fresh _ (any_key_eq_false hfreshq)]
    have step : insertAll ⟨max, cache⟩ (q :: ps) =
        insertAll ((⟨max, cache⟩ : ClassificationCache).set q.1 q.2) ps := rfl
    rw [step, hset]
    have happ : cache ++ q :: ps = (cache ++ [q]) ++ ps := by
      rw [List.append_cons]
    rw [happ] at hnd ⊢
    apply ih
    · have h3 : (cache ++ [q]).length = cache.length + 1 := by simp
      rw [h3]
      simp only [List.length_cons] at hlen
      omega
    · exact hnd

/-- C6: the cache evicts in strict insertion order: inserting capacity plus
one pairwise-distinct ids into an empty cache leaves every id retrievable
except the first-inserted one, which get no longer finds. -/
theorem cache_fifo_eviction (max : Nat) (p0 : String × EmailClassification)
    (rest : List (String × EmailClassification))
    (hmax : 1 ≤ max)
    (hlen : (p0 :: rest).length = max + 1)
    (hnd : ((p0 :: rest).map Prod.fst).Nodup) :
    (insertAll ⟨max, []⟩ (p0 :: rest)).get p0.1 = none ∧
    ∀ p ∈ rest, (insertAll ⟨max, []⟩ (p0 :: rest)).get p.1 = some p.2 := by
  have hrlen : rest.length = max := by
    simp only [List.length_cons] at hlen
    omega
  rcases List.eq_nil_or_concat rest with hr | ⟨L, b, rfl⟩
  · subst hr
    simp only [List.length_nil] at hrlen
    omega
  simp only [List.concat_eq_append] at hlen hnd hrlen ⊢
  have hfull : insertAll ⟨max, []⟩ (p0 :: (L ++ [b])) = ⟨max, L ++ [b]⟩ := by
    have hLlen : L.length + 1 = max := by
      simpa [List.length_append] using hrlen
    have hsub : List.Sublist ((p0 :: L).map Prod.fst)
        ((p0 :: (L ++ [b])).map Prod.fst) :=
      List.Sublist.map Prod.fst (List.Sublist.cons₂ p0 (List.sublist_append_left L [b]))
    have h1 : insertAll ⟨max, []⟩ (p0 :: L) = ⟨max, p0 :: L⟩ := by
      have := insertAll_fresh max (p0 :: L) []
      simp only [List.nil_append, List.length_nil, List.length_cons] at this
      exact this (by omega) (hnd.sublist hsub)
    have hbfresh : b.1 ∉ L.map Prod.fst := by
      have htail : ((L ++ [b]).map Prod.fst).Nodup := by
        rw [List.map_cons, List.nodup_cons] at hnd
        exact hnd.2
      rw [List.map_append, List.nodup_append] at htail
      obtain ⟨-, -, hdisj⟩ := htail
      intro hmem
      exact hdisj hmem (by simp)
    have hset : (ClassificationCache.mk max (p0 :: L)).set b.1 b.2 =
        ⟨max, L ++ [b]⟩ := by
      unfold ClassificationCache.set
      simp only [List.length_cons, hLlen, if_pos (le_refl max), List.drop_one,
        List.tail_cons]
      rw [dictAssign_fresh _ (any_key_eq_false hbfresh)]
    calc insertAll ⟨max, []⟩ (p0 :: (L ++ [b]))
        = insertAll ⟨max, []⟩ ((p0 :: L) ++ [b]) := by rw [List.cons_append]
      _ = insertAll (insertAll ⟨max, []⟩ (p0 :: L)) [b] := by
            unfold insertAll; rw [List.foldl_append]
      _ = (ClassificationCache.mk max (p0 :: L)).set b.1 b.2 := by rw [h1]; rfl
      _ = ⟨max, L ++ [b]⟩ := hset
  rw [hfull]
  have hndtail : ((L ++ [b]).map Prod.fst).Nodup := by
    rw [List.map_cons, List.nodup_cons] at hnd
    exact hnd.2
  constructor
  · have hp0 : p0.1 ∉ (L ++ [b]).map Prod.fst := by
      rw [List.map_cons, List.nodup_cons] at hnd
      exact hnd.1
    unfold ClassificationCache.get
    rw [find?_key_eq_none hp0]
    rfl
  · intro p hp
    unfold ClassificationCache.get
    rw [find?_of_mem_nodup hndtail hp]
    rfl

/-- Witness for C6: capacity 2, three distinct ids. -/
theorem cache_fifo_eviction_witness :
    (insertAll ⟨2, []⟩ [("a", secCls), ("b", strayCls), ("c", secCls)]).get "a" = none ∧
    ∀ p ∈ [("b", strayCls), ("c", secCls)],
      (insertAll ⟨2, []⟩ [("a", secCls), ("b", strayCls), ("c", secCls)]).get p.1 =
        some p.2 :=
  cache_fifo_eviction 2 ("a", secCls) [("b", strayCls), ("c", secCls)]
    (by decide) rfl (by decide)

/-- Every cache operation leaves the capacity field unchanged. -/
theorem applyOp_max_size (c : ClassificationCache) (op : CacheOp) :
    (applyOp c op).max_size = c.max_size := by
  cases op <;> rfl

/-- Dict assignment grows the dict by at most one entry. -/
theorem dictAssign_length_le (l : List (String × EmailClassification))
    (k : String) (v : EmailClassification) :
    (dictAssign l k v).length ≤ l.length + 1 := by
  unfold dictAssign
  split
  · rw [List.length_map]; omega
  · rw [List.length_append]; simp

/-- One setter call keeps the entry count within a positive capacity. -/
theorem set_length_le (c : ClassificationCache) (k : String)
    (v : EmailClassification) (hm : 1 ≤ c.max_size)
    (h : c.cache.length ≤ c.max_size) :
    (c.set k v).cache.length ≤ c.max_size := by
  unfold ClassificationCache.set
  by_cases hge : c.cache.length ≥ c.max_size
  · simp only [if_pos hge]
    have h1 := dictAssign_length_le (c.cache.drop 1) k v
    have h2 : (c.cache.drop 1).length = c.cache.length - 1 := by
      simp [List.length_drop]
    omega
  · simp only [if_neg hge]
    have h1 := dictAssign_length_le c.cache k v
    omega

/-- Any operation sequence from an empty cache with positive capacity keeps
the entry count within capacity. -/
theorem foldl_applyOp_length :
    ∀ (ops : List CacheOp) (c : ClassificationCache),
    1 ≤ c.max_size → c.cache.length ≤ c.max_size →
    (List.foldl applyOp c ops).cache.length ≤ c.max_size := by
  intro ops
  induction ops with
  | nil => intro c h1 h2; exact h2
  | cons op ops ih =>
    intro c h1 h2
    have hm := applyOp_max_size c op
    have hlen : (applyOp c op).cache.length ≤ (applyOp c op).max_size := by
      rw [hm]
      cases op with
      | get k => exact h2
      | has k => exact h2
      | clear => simp [applyOp, ClassificationCache.clear]
      | set k v => exact set_length_le c k v h1 h2
    have h3 := ih (applyOp c op) (by rw [hm]; exact h1) hlen
    rw [hm] at h3
    exact h3

/-- Counterexample for C10: with capacity 2, cache holding a then b, a set on
the already-present key a evicts the oldest entry, which is a itself, and
re-inserts a at the most-recent position: a moves from index 0 to index 1
instead of keeping its insertion-order position. -/
def cacheAB : ClassificationCache := ⟨2, [("a", secCls), ("b", strayCls)]⟩

/-- Counterexample theorem for C10 at the concrete cache above. -/
theorem cache_overwrite_oldest_moves_counterexample :
    cacheAB.max_size = 2 ∧ cacheAB.cache.length = 2 ∧ cacheAB.has "a" = true ∧
    (cacheAB.cache.map Prod.fst).indexOf "a" = 0 ∧
    ((cacheAB.set "a" strayCls).cache.map Prod.fst).indexOf "a" = 1 := by
  refine ⟨rfl, rfl, rfl, ?_, ?_⟩ <;> decide

/-- C10 amended: the entry count never exceeds a positive capacity under any
operation sequence; a set for an already-present key with the cache at
capacity still evicts the oldest entry first; the overwritten key keeps its
relative position among the surviving entries when it is not itself the
oldest, while a set on the oldest key evicts that entry and re-inserts the
key at the most-recent position. -/
theorem cache_bounded_and_duplicate_set_eviction :
    (∀ (max : Nat) (ops : List CacheOp), 1 ≤ max →
      (List.foldl applyOp ⟨max, []⟩ ops).cache.length ≤ max) ∧
    (∀ (c : ClassificationCache) (k : String) (v : EmailClassification)
        (q : String × EmailClassification) (t : List (String × EmailClassification)),
      c.cache = q :: t → c.cache.length = c.max_size → q.1 ∉ t.map Prod.fst →
      q.1 ≠ k → (c.set k v).get q.1 = none) ∧
    (∀ (c : ClassificationCache) (k : String) (v : EmailClassification),
      c.cache.length = c.max_size →
      (c.cache.drop 1).any (fun p => p.1 == k) = true →
      (c.set k v).cache.map Prod.fst = (c.cache.drop 1).map Prod.fst) ∧
    (∀ (c : ClassificationCache) (k : String) (v v0 : EmailClassification)
        (t : List (String × EmailClassification)),
      c.cache = (k, v0) :: t → c.cache.length = c.max_size → k ∉ t.map Prod.fst →
      (c.set k v).cache = t ++ [(k, v)]) := by
  refine ⟨?_, ?_, ?_, ?_⟩
  · intro max ops hm
    exact foldl_applyOp_length ops ⟨max, []⟩ hm (by simp)
  · intro c k v q t hq hlen hqt hqk
    unfold ClassificationCache.set ClassificationCache.get
    rw [hq]
    have hge : (q :: t).length ≥ c.max_size := by rw [← hq, hlen]
    rw [if_pos hge]
    simp only [List.drop_one, List.tail_cons]
    have hfst : q.1 ∉ (dictAssign t k v).map Prod.fst := by
      by_cases ht : t.any (fun p => p.1 == k) = true
      · rw [dictAssign_keys_of_mem v ht]
        exact hqt
      · rw [dictAssign_fresh v (Bool.eq_false_iff.mpr ht), List.map_append]
        intro hmem
        rcases List.mem_append.mp hmem with h1 | h1
        · exact hqt h1
        · simp only [List.map_cons, List.map_nil, List.mem_singleton] at h1
          exact hqk h1
    rw [find?_key_eq_none hfst]
    rfl
  · intro c k v hlen hmem
    unfold ClassificationCache.set
    simp only [if_pos (ge_of_eq hlen)]
    exact dictAssign_keys_of_mem v hmem
  · intro c k v v0 t hc hlen hfresh
    unfold ClassificationCache.set
    rw [hc]
    have hge : ((k, v0) :: t).length ≥ c.max_size := by rw [← hc, hlen]
    rw [if_pos hge]
    simp only [List.drop_one, List.tail_cons]
    exact dictAssign_fresh v (any_key_eq_false hfresh)

/-- Witness for the amended C10: a six-operation run stays within capacity
2, and the three duplicate-set behaviors on the concrete two-entry cache. -/
theorem cache_bounded_and_duplicate_set_eviction_witness :
    (List.foldl applyOp ⟨2, []⟩
      [CacheOp.set "a" secCls, CacheOp.set "b" strayCls, CacheOp.set "c" secCls,
       CacheOp.has "a", CacheOp.clear, CacheOp.set "d" strayCls]).cache.length ≤ 2 ∧
    (cacheAB.set "b" secCls).get "a" = none ∧
    (cacheAB.set "b" secCls).cache.map Prod.fst = ["b"] ∧
    (cacheAB.set "a" strayCls).cache = [("b", strayCls), ("a", strayCls)] := by
  refine ⟨?_, ?_, ?_, ?_⟩
  · exact cache_bounded_and_duplicate_set_eviction.1 2 _ (by decide)
  · exact cache_bounded_and_duplicate_set_eviction.2.1 cacheAB "b" secCls
      ("a", secCls) [("b", strayCls)] rfl rfl (by decide) (by decide)
  · have h := cache_bounded_and_duplicate_set_eviction.2.2.1 cacheAB "b" secCls
      rfl (by decide)
    simpa using h
  · exact cache_bounded_and_duplicate_set_eviction.2.2.2 cacheAB "a" strayCls
      secCls [("b", strayCls)] rfl rfl (by decide)

/-- Scheduling state of one classify_with_semaphore task of classify_batch:
not yet admitted by the semaphore, inside the async-with region (its
classify_email call in flight), or completed. -/
inductive TaskState where
  | waiting
  | running
  | finished
deriving Repr, DecidableEq

/-- Interleaving state of one classify_batch invocation: the current value
of the asyncio.Semaphore plus the state of each per-email task. -/
structure BatchState where
  sem : Nat
  tasks : List TaskState
deriving Repr, DecidableEq

/-- Number of classify_email calls in flight. -/
def countRunning (ts : List TaskState) : Nat :=
  ts.countP (fun t => t == TaskState.running)

/-- Small-step semantics of the semaphore gate of classify_batch
(classifier.py lines 147-158): a waiting task may enter the async-with
region only while the semaphore value is positive, decrementing it; a
running task may finish at any time, incrementing the semaphore on exit.
Completion order is unconstrained. -/
inductive BatchStep : BatchState → BatchState → Prop where
  | acquire (s : BatchState) (i : Nat)
      (h : s.tasks.get? i = some TaskState.waiting) (hs : 0 < s.sem) :
      BatchStep s ⟨s.sem - 1, s.tasks.set i TaskState.running⟩
  | release (s : BatchState) (i : Nat)
      (h : s.tasks.get? i = some TaskState.running) :
      BatchStep s ⟨s.sem + 1, s.tasks.set i TaskState.finished⟩

/-- Start of a batch over n emails with concurrency limit: the semaphore
holds the full limit and one task per email waits for admission. -/
def initBatch (limit n : Nat) : BatchState :=
  ⟨limit, List.replicate n TaskState.waiting⟩

/-- States an n-email batch with the given concurrency limit can reach. -/
inductive ReachableBatch (limit n : Nat) : BatchState → Prop where
  | init : ReachableBatch limit n (initBatch limit n)
  | step {s t : BatchState} :
      ReachableBatch limit n s → BatchStep s t → ReachableBatch limit n t

/-- Replacing one element shifts a countP tally by the predicate values of
the old and new elements. -/
theorem countP_set_eq (p : TaskState → Bool) :
    ∀ (l : List TaskState) (i : Nat) (a b : TaskState), l.get? i = some b →
    (l.set i a).countP p + (if p b then 1 else 0) =
      l.countP p + (if p a then 1 else 0) := by
  intro l
  induction l with
  | nil => intro i a b h; simp at h
  | cons x xs ih =>
    intro i a b h
    cases i with
    | zero =>
      rw [List.get?_cons_zero] at h
      obtain rfl : x = b := by injection h
      simp only [List.set_cons_zero, List.countP_cons]
      omega
    | succ i =>
      rw [List.get?_cons_succ] at h
      simp only [List.set_cons_succ, List.countP_cons]
      have h2 := ih i a b h
      omega

/-- Semaphore invariant: across every reachable state the in-flight count
plus the semaphore value equals the concurrency limit, and there is one
task per email. -/
theorem reachable_batch_invariant {limit n : Nat} :
    ∀ {s : BatchState}, ReachableBatch limit n s →
    countRunning s.tasks + s.sem = limit ∧ s.tasks.length = n := by
  intro s h
  induction h with
  | init =>
    constructor
    · have hz : countRunning (List.replicate n TaskState.waiting) = 0 := by
        unfold countRunning
        rw [List.countP_eq_zero]
        intro a ha
        rw [List.eq_of_mem_replicate ha]
        decide
      simp [initBatch, hz]
    · simp [initBatch]
  | step hr hstep ih =>
    rename_i s t
    obtain ⟨ih1, ih2⟩ := ih
    cases hstep with
    | acquire i hg hs =>
      constructor
      · have hc := countP_set_eq (fun t => t == TaskState.running) s.tasks i
          TaskState.running TaskState.waiting hg
        simp only [show (TaskState.waiting == TaskState.running) = false from rfl,
          show (TaskState.running == TaskState.running) = true from rfl] at hc
        simp only [Bool.false_eq_true, if_false, if_true] at hc
        dsimp only
        unfold countRunning at ih1 ⊢
        omega
      · simpa [List.length_set] using ih2
    | release i hg =>
      constructor
      · have hc := countP_set_eq (fun t => t == TaskState.running) s.tasks i
          TaskState.finished TaskState.running hg
        simp only [show (TaskState.running == TaskState.running) = true from rfl,
          show (TaskState.finished == TaskState.running) = false from rfl] at hc
        simp only [Bool.false_eq_true, if_false, if_true] at hc
        dsimp only
        unfold countRunning at ih1 ⊢
        omega
      · simpa [List.length_set] using ih2

/-- C7: classify_batch launches one task per email, and in every state the
batch can reach, the number of classify_email calls simultaneously in
flight never exceeds the concurrency limit. -/
theorem batch_concurrency_bound (limit n : Nat) (s : BatchState)
    (h : ReachableBatch limit n s) :
    s.tasks.length = n ∧ countRunning s.tasks ≤ limit := by
  obtain ⟨h1, h2⟩ := reachable_batch_invariant h
  exact ⟨h2, by omega⟩

/-- Witness for C7: limit 2, three emails, one task admitted. -/
theorem batch_concurrency_bound_witness :
    (⟨1, [TaskState.running, TaskState.waiting, TaskState.waiting]⟩ :
        BatchState).tasks.length = 3 ∧
    countRunning (⟨1, [TaskState.running, TaskState.waiting, TaskState.waiting]⟩ :
        BatchState).tasks ≤ 2 :=
  batch_concurrency_bound 2 3 _
    (ReachableBatch.step ReachableBatch.init
      (BatchStep.acquire (initBatch 2 3) 0 rfl (by decide)))
